import Mathlib

/-!
Verification of the ferex2 core: the FERS pension calculator
(src-tauri/src/main.rs, calculate_fers_pension) and the scenario store
(src-tauri/src/database.rs: init_database, save_scenario, load_scenarios,
delete_scenario).

Modelling choices:
- Real-valued arithmetic (Rust f64) is embedded over ℚ, following the
  spec's description of the inputs and result as reals; the u32 age is
  embedded as ℕ (the only operation on it is a comparison with 62, which
  cannot overflow).
- The SQLite table is embedded as a list of rows.  INSERT OR REPLACE on a
  TEXT PRIMARY KEY deletes any row with the same id and appends the new
  row; DELETE ... WHERE id = ? removes every matching row; SELECT ...
  ORDER BY updated_at DESC returns the rows sorted by the updated_at
  column descending under SQLite's byte-wise BINARY collation, which on
  UTF-8 text agrees with codepoint-lexicographic String order (ties in
  updated_at are returned in an order SQLite does not specify; the
  embedding uses insertion sort, one legitimate refinement of ORDER BY).
- init_database touches the filesystem (create_dir_all, opening ferex.db,
  CREATE TABLE IF NOT EXISTS).  Its effect is embedded on an abstract
  disk state, with the library calls modelled by their documented
  contracts: create_dir_all creates the directory and missing parents and
  succeeds if it already exists; SqlitePool::connect is called on the URL
  "sqlite:<path>" with sqlx's default options — create_if_missing is
  false and the URL carries no mode=rwc — so the connect FAILS when
  ferex.db is absent and opens the existing file otherwise;
  CREATE TABLE IF NOT EXISTS creates an empty scenarios table only when
  no table exists and leaves an existing table and its rows untouched.
- For value-level claims about the returned numbers, the f64 arithmetic
  is additionally modelled exactly: fl64 rounds a rational to the nearest
  binary64 value (53-bit significand, round to nearest, ties to even; the
  values reached here are all normal and far from overflow), and
  calculate_fers_pension_fp applies it after each of the two
  left-associated multiplications of the source expression
  high_three * service_years * multiplier, with the literals 0.011 and
  0.01 replaced by the doubles nearest them.
-/

/-- The persisted entity `SavedScenario` from database.rs: five text
columns, `id` being the primary key. -/
structure SavedScenario where
  id : String
  name : String
  data : String
  created_at : String
  updated_at : String
  deriving DecidableEq, Repr

/-- The scenarios table, embedded as a list of rows. -/
abbrev Store := List SavedScenario

/-- Embedding of `calculate_fers_pension` from main.rs: multiplier 0.011
when `age_at_retirement >= 62 && service_years >= 20.0`, otherwise 0.01;
result `high_three * service_years * multiplier`, wrapped in the infallible
`Ok` of its `Result<f64, String>` signature. -/
def calculate_fers_pension (service_years high_three : ℚ)
    (age_at_retirement : ℕ) : Except String ℚ :=
  let multiplier : ℚ :=
    if 62 ≤ age_at_retirement ∧ 20 ≤ service_years then 11/1000 else 1/100
  Except.ok (high_three * service_years * multiplier)

/-- Embedding of `save_scenario` from database.rs:
`INSERT OR REPLACE INTO scenarios` on the `id` primary key removes any
existing row with the same id and inserts the new row. -/
def save_scenario (store : Store) (s : SavedScenario) : Store :=
  store.filter (fun r => decide (r.id ≠ s.id)) ++ [s]

/-- The ORDER BY comparison of `load_scenarios`: row `a` may precede row
`b` when `b.updated_at ≤ a.updated_at` (descending). -/
def updatedDesc (a b : SavedScenario) : Prop :=
  b.updated_at ≤ a.updated_at

instance : DecidableRel updatedDesc := fun a b =>
  decidable_of_iff (b.updated_at.toList ≤ a.updated_at.toList)
    String.le_iff_toList_le.symm

instance : IsTotal SavedScenario updatedDesc :=
  ⟨fun a b => le_total b.updated_at a.updated_at⟩

instance : IsTrans SavedScenario updatedDesc :=
  ⟨fun _ _ _ hab hbc => le_trans hbc hab⟩

/-- Embedding of `load_scenarios` from database.rs:
`SELECT * FROM scenarios ORDER BY updated_at DESC`, each row mapped back
to a `SavedScenario` field by field. -/
def load_scenarios (store : Store) : List SavedScenario :=
  List.insertionSort updatedDesc store

/-- Embedding of `delete_scenario` from database.rs:
`DELETE FROM scenarios WHERE id = ?` removes every row whose id equals
the argument. -/
def delete_scenario (store : Store) (i : String) : Store :=
  store.filter (fun r => decide (r.id ≠ i))

/-- State of the scenarios table inside the ferex.db file: the file may be
absent, present without a scenarios table, or present with a table. -/
inductive DbFile
  | absent
  | noTable
  | table (rows : Store)
  deriving DecidableEq, Repr

/-- The on-disk state touched by `init_database`: whether the application
data directory exists, and the state of ferex.db inside it. -/
structure DiskState where
  dirExists : Bool
  db : DbFile
  deriving DecidableEq, Repr

/-- Embedding of `init_database` from database.rs on the abstract disk
state: `fs::create_dir_all` ensures the directory exists;
`SqlitePool::connect` is invoked on `sqlite:<path>` with sqlx's default
options (create_if_missing = false, no mode=rwc in the URL), so it fails
with SQLite's "unable to open database file" when ferex.db is absent and
opens the existing file otherwise; on success,
`CREATE TABLE IF NOT EXISTS scenarios (...)` creates an empty table only
when none exists, leaving an existing table's rows untouched. -/
def init_database (d : DiskState) : Except String DiskState :=
  let afterDir : DiskState := { d with dirExists := true }
  match afterDir.db with
  | DbFile.absent => Except.error "unable to open database file"
  | DbFile.noTable => Except.ok { afterDir with db := DbFile.table [] }
  | DbFile.table rows => Except.ok { afterDir with db := DbFile.table rows }

/-- One store operation, for stating the reachable-state invariant. -/
inductive StoreOp
  | save (s : SavedScenario)
  | del (i : String)
  | listAll

/-- Apply one operation to the table (list is read-only). -/
def applyOp (store : Store) : StoreOp → Store
  | StoreOp.save s => save_scenario store s
  | StoreOp.del i => delete_scenario store i
  | StoreOp.listAll => store

/-- Run a sequence of operations from a starting table state. -/
def runOps (store : Store) (ops : List StoreOp) : Store :=
  ops.foldl applyOp store

/-- Concrete scenario with updated_at 2024-01-01 (test data). -/
def scnJan : SavedScenario :=
  { id := "a", name := "jan", data := "{}",
    created_at := "2024-01-01", updated_at := "2024-01-01" }

/-- Concrete scenario with updated_at 2024-03-01 (test data). -/
def scnMar : SavedScenario :=
  { id := "b", name := "mar", data := "{}",
    created_at := "2024-03-01", updated_at := "2024-03-01" }

/-- Concrete scenario with updated_at 2024-02-01 (test data). -/
def scnFeb : SavedScenario :=
  { id := "c", name := "feb", data := "{}",
    created_at := "2024-02-01", updated_at := "2024-02-01" }

/-- Concrete scenario sharing scnJan's id with different fields. -/
def scnJanV2 : SavedScenario :=
  { id := "a", name := "jan v2", data := "[1]",
    created_at := "2024-05-05", updated_at := "2024-06-06" }

/-- Round a rational to the nearest integer, ties to even: the IEEE-754
default rounding direction. -/
def rne (x : ℚ) : ℤ :=
  if x - ⌊x⌋ < 1/2 then ⌊x⌋
  else if 1/2 < x - ⌊x⌋ then ⌊x⌋ + 1
  else if ⌊x⌋ % 2 = 0 then ⌊x⌋ else ⌊x⌋ + 1

/-- Binary64 (Rust f64) rounding of an exact value: the significand has
53 bits, so a value in the binade [2^e, 2^(e+1)) is rounded to the
nearest multiple of 2^(e-52), ties to even.  Overflow and subnormals lie
far outside every value this development reaches and are not modelled. -/
def fl64 (q : ℚ) : ℚ :=
  if q = 0 then 0
  else
    (if 0 < q then 1 else -1) *
      (rne (|q| * (2:ℚ) ^ ((52:ℤ) - Int.log 2 |q|)) : ℚ) *
      (2:ℚ) ^ (Int.log 2 |q| - 52)

/-- Embedding of `calculate_fers_pension` from main.rs in the program's
actual binary64 arithmetic: the arguments are the f64 input values (each
an exactly represented dyadic rational); the literals `0.011` and `0.01`
are the doubles nearest those decimals; the comparisons
`age_at_retirement >= 62 && service_years >= 20.0` are exact, 62 and 20.0
being exactly representable; and the product
`high_three * service_years * multiplier` rounds after each of its two
left-associated multiplications. -/
def calculate_fers_pension_fp (service_years high_three : ℚ)
    (age_at_retirement : ℕ) : Except String ℚ :=
  let multiplier : ℚ :=
    if 62 ≤ age_at_retirement ∧ 20 ≤ service_years then fl64 (11/1000)
    else fl64 (1/100)
  Except.ok (fl64 (fl64 (high_three * service_years) * multiplier))

/-- The binary64 value nearest 19.999 (the double the program receives
for the literal 19.999); it is 19.9989999999999988... , just below
19.999. -/
def fp_19_999 : ℚ := 5629218059236409 / 2 ^ 48

/-- The binary64 value nearest 0.01 (just above it). -/
def fp_0_01 : ℚ := 5764607523034235 / 2 ^ 59

/-- The binary64 value nearest 0.011 (just below it). -/
def fp_0_011 : ℚ := 6341068275337658 / 2 ^ 59

/-- The binary64 product 100000.0 * fp_19_999 as the program computes it:
1999899.9999999997672..., one ulp below 1999900. -/
def fp_1999900m : ℚ := 8589505095270399 / 2 ^ 32

/-- The binary64 result of the 19.999 boundary case:
19998.9999999999963620..., one ulp below 19999. -/
def fp_result_19999 : ℚ := 5497283260973055 / 2 ^ 38

/-- C1: calculate_pension returns high_three * service_years * m, where m
is 0.011 exactly when age_at_retirement >= 62 and service_years >= 20.0
(both boundaries inclusive), and 0.01 otherwise. -/
theorem pension_multiplier_rule :
    (∀ (sy ht : ℚ) (age : ℕ), 62 ≤ age → 20 ≤ sy →
      calculate_fers_pension sy ht age = Except.ok (ht * sy * (11/1000))) ∧
    (∀ (sy ht : ℚ) (age : ℕ), ¬(62 ≤ age ∧ 20 ≤ sy) →
      calculate_fers_pension sy ht age = Except.ok (ht * sy * (1/100))) := by
  constructor
  · intro sy ht age h1 h2
    simp only [calculate_fers_pension]
    rw [if_pos ⟨h1, h2⟩]
  · intro sy ht age h
    simp only [calculate_fers_pension]
    rw [if_neg h]

/-- Witness for C1: both branches evaluated at the age-62 / 20-year
boundary and just below it. -/
theorem pension_multiplier_rule_witness :
    calculate_fers_pension 20 100000 62 = Except.ok 22000 ∧
    calculate_fers_pension 20 100000 61 = Except.ok 20000 := by
  constructor
  · have h := pension_multiplier_rule.1 20 100000 62 (by norm_num) (by norm_num)
    rw [h]; norm_num
  · have h := pension_multiplier_rule.2 20 100000 61
      (fun hc => absurd hc.1 (by norm_num))
    rw [h]; norm_num

/-- C7: calculate_pension is total and infallible: every numeric input,
including negative service years, yields Ok; the embedding is a pure
function, so determinism is inherent. -/
theorem calculate_pension_total (sy ht : ℚ) (age : ℕ) :
    ∃ v : ℚ, calculate_fers_pension sy ht age = Except.ok v :=
  ⟨_, rfl⟩

/-- After a save, the rows whose id equals the saved id are exactly the
one saved row. -/
lemma save_filter_self (store : Store) (s : SavedScenario) :
    (save_scenario store s).filter (fun r => decide (r.id = s.id)) = [s] := by
  unfold save_scenario
  rw [List.filter_append]
  have h1 : (store.filter (fun r => decide (r.id ≠ s.id))).filter
      (fun r => decide (r.id = s.id)) = [] := by
    rw [List.filter_filter]
    rw [List.filter_eq_nil_iff.mpr]
    intro a _
    simp
  rw [h1]
  simp

/-- C2: save is an upsert: after save(s) exactly one row carries s.id and
it is s itself (all five fields, created_at included, taken from the new
call); a second save with the same id leaves exactly the second row. -/
theorem save_upsert_semantics (store : Store) (s : SavedScenario) :
    (save_scenario store s).filter (fun r => decide (r.id = s.id)) = [s] ∧
    ∀ s2 : SavedScenario, s2.id = s.id →
      (save_scenario (save_scenario store s) s2).filter
        (fun r => decide (r.id = s.id)) = [s2] := by
  refine ⟨save_filter_self store s, ?_⟩
  intro s2 h
  have h2 := save_filter_self (save_scenario store s) s2
  rw [h] at h2
  exact h2

/-- Witness for C2: two saves under id "a" with different fields leave
exactly the second row. -/
theorem save_upsert_semantics_witness :
    (save_scenario [] scnJan).filter
      (fun r => decide (r.id = scnJan.id)) = [scnJan] ∧
    (save_scenario (save_scenario [] scnJan) scnJanV2).filter
      (fun r => decide (r.id = scnJan.id)) = [scnJanV2] :=
  ⟨(save_upsert_semantics [] scnJan).1,
   (save_upsert_semantics [] scnJan).2 scnJanV2 rfl⟩

/-- C10: frame property of save: the rows whose id differs from s.id are
exactly the same rows, in the same order with all five fields intact,
before and after save(s). -/
theorem save_frame_property (store : Store) (s : SavedScenario) :
    (save_scenario store s).filter (fun r => decide (r.id ≠ s.id)) =
      store.filter (fun r => decide (r.id ≠ s.id)) := by
  unfold save_scenario
  rw [List.filter_append, List.filter_filter]
  simp [List.filter]

/-- C5: round-trip: after save(s), list() contains a row all five of whose
fields equal those of s (the data field verbatim, since rows are returned
field by field unparsed). -/
theorem save_load_roundtrip (store : Store) (s : SavedScenario) :
    s ∈ load_scenarios (save_scenario store s) := by
  have hperm := List.perm_insertionSort updatedDesc (save_scenario store s)
  unfold load_scenarios
  refine hperm.mem_iff.mpr ?_
  unfold save_scenario
  simp

/-- C4: list() returns all stored rows sorted by updated_at descending;
on the spec's three-scenario example it returns the 2024-03-01, then
2024-02-01, then 2024-01-01 row, and on the empty store it returns []. -/
theorem load_scenarios_ordering :
    (∀ store : Store,
      List.Perm (load_scenarios store) store ∧
      List.Sorted updatedDesc (load_scenarios store)) ∧
    load_scenarios (save_scenario (save_scenario (save_scenario [] scnJan)
      scnMar) scnFeb) = [scnMar, scnFeb, scnJan] ∧
    load_scenarios ([] : Store) = [] := by
  refine ⟨fun store => ⟨List.perm_insertionSort updatedDesc store,
    List.sorted_insertionSort updatedDesc store⟩, ?_, rfl⟩
  decide

/-- Deleting an id carried by no row leaves the table unchanged. -/
lemma delete_keeps_other_ids (store : Store) (i : String)
    (h : ∀ r ∈ store, r.id ≠ i) : delete_scenario store i = store := by
  unfold delete_scenario
  rw [List.filter_eq_self]
  intro a ha
  simpa using h a ha

/-- Under unique ids, delete removes at most one row. -/
lemma delete_length_bound (store : Store) (i : String)
    (h : (store.map SavedScenario.id).Nodup) :
    store.length ≤ (delete_scenario store i).length + 1 := by
  induction store with
  | nil => simp
  | cons r rest ih =>
    rw [List.map_cons, List.nodup_cons] at h
    by_cases hr : r.id = i
    · have hrest : delete_scenario rest i = rest := by
        apply delete_keeps_other_ids
        intro a ha hai
        exact h.1 (by
          rw [hr, ← hai]
          exact List.mem_map_of_mem SavedScenario.id ha)
      have hstep : delete_scenario (r :: rest) i = delete_scenario rest i := by
        unfold delete_scenario
        rw [List.filter_cons_of_neg (by simp [hr])]
      rw [hstep, hrest]
      simp
    · have hstep : delete_scenario (r :: rest) i =
          r :: delete_scenario rest i := by
        unfold delete_scenario
        rw [List.filter_cons_of_pos (by simp [hr])]
      rw [hstep]
      have := ih h.2
      simp only [List.length_cons]
      omega

/-- C6: delete(id) keeps a subsequence of the rows (each kept row intact),
only rows carrying the argument id are removed, under the primary-key
uniqueness of ids at most one row is removed, and when no row carries the
id the delete is a successful no-op. -/
theorem delete_semantics (store : Store) (i : String) :
    List.Sublist (delete_scenario store i) store ∧
    (∀ r ∈ store, r ∉ delete_scenario store i → r.id = i) ∧
    ((store.map SavedScenario.id).Nodup →
      store.length ≤ (delete_scenario store i).length + 1) ∧
    ((∀ r ∈ store, r.id ≠ i) → delete_scenario store i = store) := by
  refine ⟨List.filter_sublist store, ?_, delete_length_bound store i,
    delete_keeps_other_ids store i⟩
  intro r hr hnot
  by_contra hne
  exact hnot (List.mem_filter.mpr ⟨hr, by simpa using hne⟩)

/-- Witness for C6: deleting the absent id "zzz" from a one-row table is
a no-op and removes no row. -/
theorem delete_semantics_witness :
    List.Sublist (delete_scenario [scnJan] "zzz") [scnJan] ∧
    ([scnJan] : Store).length ≤ (delete_scenario [scnJan] "zzz").length + 1 ∧
    delete_scenario [scnJan] "zzz" = [scnJan] := by
  have h := delete_semantics [scnJan] "zzz"
  refine ⟨h.1, h.2.2.1 (by decide), h.2.2.2 ?_⟩
  intro r hr
  rw [List.mem_singleton] at hr
  rw [hr]
  decide

/-- save preserves uniqueness of ids. -/
lemma save_preserves_nodup (store : Store) (s : SavedScenario)
    (h : (store.map SavedScenario.id).Nodup) :
    ((save_scenario store s).map SavedScenario.id).Nodup := by
  unfold save_scenario
  rw [List.map_append]
  apply List.Nodup.append
  · exact List.Nodup.sublist
      (List.Sublist.map SavedScenario.id (List.filter_sublist store)) h
  · simp
  · intro x hx hx2
    rw [List.mem_map] at hx
    obtain ⟨a, ha, rfl⟩ := hx
    rw [List.mem_filter] at ha
    have hne : a.id ≠ s.id := by simpa using ha.2
    simp only [List.map_cons, List.map_nil, List.mem_singleton] at hx2
    exact hne hx2

/-- delete preserves uniqueness of ids. -/
lemma delete_preserves_nodup (store : Store) (i : String)
    (h : (store.map SavedScenario.id).Nodup) :
    ((delete_scenario store i).map SavedScenario.id).Nodup := by
  unfold delete_scenario
  exact List.Nodup.sublist
    (List.Sublist.map SavedScenario.id (List.filter_sublist store)) h

/-- C9: in every table state reachable from the freshly initialized empty
table by any sequence of save, delete and list operations, each id
identifies at most one row, and every single operation preserves this
invariant. -/
theorem id_uniqueness_invariant :
    (∀ (store : Store) (op : StoreOp), (store.map SavedScenario.id).Nodup →
      ((applyOp store op).map SavedScenario.id).Nodup) ∧
    (∀ ops : List StoreOp, ((runOps [] ops).map SavedScenario.id).Nodup) := by
  have step : ∀ (store : Store) (op : StoreOp),
      (store.map SavedScenario.id).Nodup →
      ((applyOp store op).map SavedScenario.id).Nodup := by
    intro store op h
    cases op with
    | save s => exact save_preserves_nodup store s h
    | del i => exact delete_preserves_nodup store i h
    | listAll => exact h
  refine ⟨step, ?_⟩
  have main : ∀ (ops : List StoreOp) (store : Store),
      (store.map SavedScenario.id).Nodup →
      ((runOps store ops).map SavedScenario.id).Nodup := by
    intro ops
    induction ops with
    | nil => intro store h; exact h
    | cons op rest ih =>
      intro store h
      exact ih (applyOp store op) (step store op h)
  intro ops
  exact main ops [] (by simp)

/-- Witness for C9: saving a second distinct id into a one-row table keeps
the ids unique. -/
theorem id_uniqueness_invariant_witness :
    ((applyOp [scnJan] (StoreOp.save scnMar)).map SavedScenario.id).Nodup :=
  id_uniqueness_invariant.1 [scnJan] (StoreOp.save scnMar) (by decide)

/-- C3: the code fails on the claim's headline input: with the base
directory freshly created and ferex.db absent, init_database returns the
error branch instead of creating the database, because the connect call
leaves sqlx's create_if_missing at its false default; initialization
succeeds, preserves existing rows, and is idempotent only when the
database file already exists. -/
theorem init_database_fresh_fails :
    (init_database { dirExists := true, db := DbFile.absent } =
      Except.error "unable to open database file") ∧
    (∀ (d : DiskState) (rows : Store), d.db = DbFile.table rows →
      init_database d =
        Except.ok { dirExists := true, db := DbFile.table rows }) ∧
    (∀ d d2 : DiskState, init_database d = Except.ok d2 →
      init_database d2 = Except.ok d2) := by
  refine ⟨rfl, ?_, ?_⟩
  · intro d rows h
    obtain ⟨dir, db⟩ := d
    simp only at h
    subst h
    rfl
  · intro d d2 h
    obtain ⟨dir, db⟩ := d
    cases db with
    | absent => exact absurd h (by simp [init_database])
    | noTable =>
        rw [show init_database ⟨dir, DbFile.noTable⟩ =
            Except.ok { dirExists := true, db := DbFile.table [] } from rfl,
          Except.ok.injEq] at h
        subst h
        rfl
    | table rows =>
        rw [show init_database ⟨dir, DbFile.table rows⟩ =
            Except.ok { dirExists := true, db := DbFile.table rows } from rfl,
          Except.ok.injEq] at h
        subst h
        rfl

/-- Witness for C3's theorem: initialization over an existing one-row
table succeeds keeping the row, and running it again is a fixpoint. -/
theorem init_database_fresh_fails_witness :
    init_database { dirExists := false, db := DbFile.table [scnJan] } =
      Except.ok { dirExists := true, db := DbFile.table [scnJan] } ∧
    init_database { dirExists := true, db := DbFile.table [scnJan] } =
      Except.ok { dirExists := true, db := DbFile.table [scnJan] } := by
  have h := init_database_fresh_fails
  exact ⟨h.2.1 { dirExists := false, db := DbFile.table [scnJan] } [scnJan] rfl,
    h.2.2 { dirExists := false, db := DbFile.table [scnJan] }
      { dirExists := true, db := DbFile.table [scnJan] }
      (h.2.1 { dirExists := false, db := DbFile.table [scnJan] } [scnJan] rfl)⟩

/-- rne evaluates to the floor when the value sits strictly below the
half-way point. -/
lemma rne_eq_of_lt {x : ℚ} {n : ℤ} (h1 : (n:ℚ) ≤ x) (h2 : x < n + 1/2) :
    rne x = n := by
  have hfl : ⌊x⌋ = n := Int.floor_eq_iff.mpr ⟨h1, by linarith⟩
  simp only [rne, hfl]
  rw [if_pos (by linarith)]

/-- rne evaluates to n when the value sits strictly above the half-way
point below n. -/
lemma rne_eq_of_gt {x : ℚ} {n : ℤ} (h1 : (n:ℚ) - 1/2 < x) (h2 : x < n) :
    rne x = n := by
  have hfl : ⌊x⌋ = n - 1 := by
    rw [Int.floor_eq_iff]
    constructor
    · push_cast
      linarith
    · push_cast
      linarith
  have hle : (1:ℚ)/2 ≤ x - ↑(n-1) := by push_cast; linarith
  have hlt : (1:ℚ)/2 < x - ↑(n-1) := by push_cast; linarith
  simp only [rne, hfl]
  rw [if_neg (not_lt.mpr hle), if_pos hlt]
  omega

/-- Evaluation rule for fl64 on a positive value with known binade
[2^e, 2^(e+1)) and known rounded scaled significand m. -/
lemma fl64_eq {q : ℚ} {e m : ℤ}
    (h1 : (2:ℚ) ^ e ≤ q) (h2 : q < (2:ℚ) ^ (e + 1))
    (hm : rne (q * (2:ℚ) ^ ((52:ℤ) - e)) = m) :
    fl64 q = (m : ℚ) * (2:ℚ) ^ (e - 52) := by
  have hq : 0 < q := lt_of_lt_of_le (zpow_pos (by norm_num) e) h1
  have hq0 : q ≠ 0 := ne_of_gt hq
  have hlog : Int.log 2 q = e := by
    have hl1 : ((2:ℕ):ℚ) ^ Int.log 2 q ≤ q :=
      Int.zpow_log_le_self (by norm_num) hq
    have hl2 : q < ((2:ℕ):ℚ) ^ (Int.log 2 q + 1) :=
      Int.lt_zpow_succ_log_self (by norm_num) q
    rw [show ((2:ℕ):ℚ) = 2 from by norm_num] at hl1 hl2
    by_contra hne
    rcases lt_or_gt_of_ne hne with hlt | hgt
    · have hle : (2:ℚ) ^ (Int.log 2 q + 1) ≤ (2:ℚ) ^ e :=
        zpow_le_zpow_right₀ (by norm_num) (by omega)
      linarith
    · have hle : (2:ℚ) ^ (e + 1) ≤ (2:ℚ) ^ (Int.log 2 q) :=
        zpow_le_zpow_right₀ (by norm_num) (by omega)
      linarith
  have habs : |q| = q := abs_of_pos hq
  simp only [fl64, if_neg hq0, if_pos hq, habs, hlog, hm, one_mul]

/-- The double nearest 19.999 (rounds down: the scaled value ends in
.344). -/
lemma fl64_of_19_999 : fl64 ((19999:ℚ)/1000) = fp_19_999 := by
  have h := fl64_eq (q := (19999:ℚ)/1000) (e := 4) (m := 5629218059236409)
    (by norm_num) (by norm_num)
    (rne_eq_of_lt (by norm_num) (by norm_num))
  rw [h]
  simp only [fp_19_999]
  norm_num

/-- The double nearest 0.01 (rounds up: the scaled value ends in .88). -/
lemma fl64_of_0_01 : fl64 ((1:ℚ)/100) = fp_0_01 := by
  have h := fl64_eq (q := (1:ℚ)/100) (e := -7) (m := 5764607523034235)
    (by norm_num) (by norm_num)
    (rne_eq_of_gt (by norm_num) (by norm_num))
  rw [h]
  simp only [fp_0_01]
  norm_num

/-- The double nearest 0.011 (rounds down: the scaled value ends in
.368). -/
lemma fl64_of_0_011 : fl64 ((11:ℚ)/1000) = fp_0_011 := by
  have h := fl64_eq (q := (11:ℚ)/1000) (e := -7) (m := 6341068275337658)
    (by norm_num) (by norm_num)
    (rne_eq_of_lt (by norm_num) (by norm_num))
  rw [h]
  simp only [fp_0_011]
  norm_num

/-- 2000000 = 100000 * 20 is exactly representable, so fl64 fixes it. -/
lemma fl64_of_2000000 : fl64 (2000000:ℚ) = 2000000 := by
  have h := fl64_eq (q := (2000000:ℚ)) (e := 20) (m := 8589934592000000)
    (by norm_num) (by norm_num)
    (rne_eq_of_lt (by norm_num) (by norm_num))
  rw [h]
  norm_num

/-- 100000 * fp_19_999 lies 0.525 ulp below 1999900, so it rounds DOWN to
one ulp below 1999900 — the step that loses the exact decimal value. -/
lemma fl64_of_p1 : fl64 ((100000:ℚ) * fp_19_999) = fp_1999900m := by
  have h := fl64_eq (q := (100000:ℚ) * fp_19_999) (e := 20)
    (m := 8589505095270399)
    (by norm_num [fp_19_999]) (by norm_num [fp_19_999])
    (rne_eq_of_lt (by norm_num [fp_19_999]) (by norm_num [fp_19_999]))
  rw [h]
  simp only [fp_1999900m]
  norm_num

/-- The final rounding of the 19.999 case lands one ulp below 19999. -/
lemma fl64_of_res19999 : fl64 (fp_1999900m * fp_0_01) = fp_result_19999 := by
  have h := fl64_eq (q := fp_1999900m * fp_0_01) (e := 14)
    (m := 5497283260973055)
    (by norm_num [fp_1999900m, fp_0_01]) (by norm_num [fp_1999900m, fp_0_01])
    (rne_eq_of_lt (by norm_num [fp_1999900m, fp_0_01])
      (by norm_num [fp_1999900m, fp_0_01]))
  rw [h]
  simp only [fp_result_19999]
  norm_num

/-- 2000000 * fp_0_011 lies 0.35 ulp below 22000, so it rounds up to
exactly 22000. -/
lemma fl64_of_22000 : fl64 ((2000000:ℚ) * fp_0_011) = 22000 := by
  have h := fl64_eq (q := (2000000:ℚ) * fp_0_011) (e := 14)
    (m := 6047313952768000)
    (by norm_num [fp_0_011]) (by norm_num [fp_0_011])
    (rne_eq_of_gt (by norm_num [fp_0_011]) (by norm_num [fp_0_011]))
  rw [h]
  norm_num

/-- 2000000 * fp_0_01 lies 0.11 ulp above 20000, so it rounds down to
exactly 20000. -/
lemma fl64_of_20000 : fl64 ((2000000:ℚ) * fp_0_01) = 20000 := by
  have h := fl64_eq (q := (2000000:ℚ) * fp_0_01) (e := 14)
    (m := 5497558138880000)
    (by norm_num [fp_0_01]) (by norm_num [fp_0_01])
    (rne_eq_of_lt (by norm_num [fp_0_01]) (by norm_num [fp_0_01]))
  rw [h]
  norm_num

/-- Binary64 evaluation of the (20.0, 100000, 62) case. -/
lemma fp_calc_20_62 :
    calculate_fers_pension_fp 20 100000 62 = Except.ok 22000 := by
  simp only [calculate_fers_pension_fp]
  rw [if_pos ⟨le_refl 62, le_refl (20:ℚ)⟩]
  rw [show (100000:ℚ) * 20 = 2000000 from by norm_num]
  rw [fl64_of_2000000, fl64_of_0_011, fl64_of_22000]

/-- Binary64 evaluation of the (20.0, 100000, 61) case. -/
lemma fp_calc_20_61 :
    calculate_fers_pension_fp 20 100000 61 = Except.ok 20000 := by
  simp only [calculate_fers_pension_fp]
  rw [if_neg (by rintro ⟨h, -⟩; omega)]
  rw [show (100000:ℚ) * 20 = 2000000 from by norm_num]
  rw [fl64_of_2000000, fl64_of_0_01, fl64_of_20000]

/-- Binary64 evaluation of the (19.999, 100000, 62) case: the eligibility
comparison sees fp_19_999 < 20, selects 0.01, and the two rounded
multiplications land one ulp below 19999. -/
lemma fp_calc_19999 :
    calculate_fers_pension_fp fp_19_999 100000 62 =
      Except.ok fp_result_19999 := by
  simp only [calculate_fers_pension_fp]
  rw [if_neg (by
    rintro ⟨-, h⟩
    simp only [fp_19_999] at h
    norm_num at h)]
  rw [fl64_of_p1, fl64_of_0_01, fl64_of_res19999]

/-- C8 counterexample: at the spec's middle boundary point — service
years the double nearest 19.999, high three 100000, age 62 — the binary64
program does not return 19999: it returns
fp_result_19999 = 5497283260973055/2^38 = 19998.9999999999963…. -/
theorem pension_boundary_fp_counterexample :
    calculate_fers_pension_fp fp_19_999 100000 62 ≠ Except.ok 19999 ∧
    calculate_fers_pension_fp fp_19_999 100000 62 =
      Except.ok fp_result_19999 := by
  refine ⟨?_, fp_calc_19999⟩
  rw [fp_calc_19999]
  intro h
  rw [Except.ok.injEq] at h
  simp only [fp_result_19999] at h
  norm_num at h

/-- C8 amended: compute(20.0, 100000, 62) = 22000 and
compute(20.0, 100000, 61) = 20000 hold as exact equalities of the
returned binary64 numbers; compute(19.999, 100000, 62) returns the double
fp_result_19999 = 19998.9999999999963…, exactly one unit in the last
place (2^-38) below 19999 rather than 19999 itself. -/
theorem pension_boundary_values_fp :
    calculate_fers_pension_fp 20 100000 62 = Except.ok 22000 ∧
    calculate_fers_pension_fp 20 100000 61 = Except.ok 20000 ∧
    calculate_fers_pension_fp fp_19_999 100000 62 =
      Except.ok fp_result_19999 ∧
    (19999:ℚ) - fp_result_19999 = 1 / 2 ^ 38 := by
  refine ⟨fp_calc_20_62, fp_calc_20_61, fp_calc_19999, ?_⟩
  norm_num [fp_result_19999]
